import Mathlib

/-!
# Request validation and dispatch of `app/router.go`

A shallow embedding of `src/99-examples/update-display-data/app/router.go`
(package `app`) and the properties of its request pipeline.

* Part 1 models what `json.NewDecoder(r.Body).Decode(&v)` does with a request
  body: the scanner of `encoding/json` reads the first JSON value of the
  stream, character by character, and the value is then stored into the target
  (`PlateRequestBody` or `map[string]interface{}`).
* Part 2 models the data and the handlers of `router.go`.
* Part 3 states and proves the properties.

Bodies are sequences of Unicode characters (a body that is well-formed UTF-8).
-/

namespace App

/-! ## Part 1: `encoding/json` -/

/-- A JSON number literal, kept as written: sign, integer digits, fraction
digits (empty when there is no fraction) and exponent (sign and digits). -/
structure NumLit where
  neg : Bool
  int : List Char
  frac : List Char
  exp : Option (Bool × List Char)
deriving DecidableEq, Repr

/-- JSON values, as scanned from a body. Object members are kept in the order
in which they are written, duplicates included. -/
inductive JSON where
  | null
  | bool (b : Bool)
  | num (n : NumLit)
  | str (s : String)
  | arr (elems : List JSON)
  | obj (members : List (String × JSON))
deriving Repr

/-- The scanner's `parseState` stack, together with the parts of the enclosing
arrays and objects that were already read. -/
inductive Frame where
  /-- inside an array, reading an element (`parseArrayValue`) -/
  | arrValue (acc : List JSON)
  /-- inside an array, after an element: `,` or `]` comes next -/
  | arrNext (acc : List JSON)
  /-- inside an object, reading a key (`parseObjectKey`) -/
  | objKey (acc : List (String × JSON))
  /-- inside an object, after a key: `:` comes next -/
  | objColon (acc : List (String × JSON)) (key : String)
  /-- inside an object, reading the value of `key` (`parseObjectValue`) -/
  | objValue (acc : List (String × JSON)) (key : String)
  /-- inside an object, after a member: `,` or `}` comes next -/
  | objNext (acc : List (String × JSON))
deriving Repr

/-- Where the scanner is inside a number literal (`stateNeg`, `state0`,
`state1`, `stateDot`, `stateDot0`, `stateE`, `stateESign`, `stateE0`). -/
inductive NumPhase where
  | neg | zero | int | dot | dot0 | e | eSign | e0
deriving DecidableEq, Repr

/-- The scanner's `step` function, as data. -/
inductive Lex where
  | beginValue
  | beginValueOrEmpty
  | beginStringOrEmpty
  | beginString
  | endValue
  /-- inside a string literal: the characters decoded so far and a pending
  UTF-16 high surrogate of a preceding `\u` escape -/
  | inString (acc : List Char) (hi : Option Nat)
  | inStringEsc (acc : List Char) (hi : Option Nat)
  /-- inside `\uXXXX`: the value of the hex digits read so far and how many -/
  | inStringEscU (acc : List Char) (hi : Option Nat) (val : Nat) (count : Nat)
  | inNumber (phase : NumPhase) (n : NumLit)
  /-- inside `true`, `false` or `null`: the characters still expected -/
  | inLiteral (expect : List Char) (v : JSON)
deriving Repr

/-- A scanner state. -/
structure Scanner where
  lex : Lex
  stack : List Frame
deriving Repr

/-- The outcome of feeding one character to the scanner. `done v consumed`:
the first value of the stream is complete; `consumed` tells whether the
character belongs to it. -/
inductive Step where
  | error
  | next (s : Scanner)
  | done (v : JSON) (consumed : Bool)
deriving Repr

/-- The nesting limit of `encoding/json` (`maxNestingDepth`). -/
def maxNestingDepth : Nat := 10000

/-- The function `isSpace` of the scanner. -/
def isSpace (c : Char) : Bool :=
  c = ' ' || c = '\t' || c = '\r' || c = '\n'

def isDigit (c : Char) : Bool := '0' ≤ c && c ≤ '9'

/-- The value of a hexadecimal digit, if it is one. -/
def hexVal (c : Char) : Option Nat :=
  if '0' ≤ c && c ≤ '9' then some (c.toNat - '0'.toNat)
  else if 'a' ≤ c && c ≤ 'f' then some (c.toNat - 'a'.toNat + 10)
  else if 'A' ≤ c && c ≤ 'F' then some (c.toNat - 'A'.toNat + 10)
  else none

/-- The Unicode replacement character, written for an invalid surrogate. -/
def replacementChar : Char := Char.ofNat 0xFFFD

/-- A value is complete: it is the first value of the stream when the stack is
empty, and otherwise it is added to the enclosing array or object. -/
def complete : List Frame → JSON → Bool → Step
  | [], v, consumed => .done v consumed
  | .arrValue acc :: st, v, _ => .next ⟨.endValue, .arrNext (acc ++ [v]) :: st⟩
  | .objValue acc k :: st, v, _ => .next ⟨.endValue, .objNext (acc ++ [(k, v)]) :: st⟩
  | _, _, _ => .error

/-- A string literal is complete: a key when the scanner reads a key, and a
value otherwise. -/
def completeString : List Frame → String → Step
  | .objKey acc :: st, k => .next ⟨.endValue, .objColon acc k :: st⟩
  | st, s => complete st (.str s) true

/-- The function `stateEndValue`: after a value inside an array or an object. -/
def stepEndValue (stack : List Frame) (c : Char) : Step :=
  if isSpace c then .next ⟨.endValue, stack⟩
  else match stack with
    | .objColon acc k :: st =>
      if c = ':' then .next ⟨.beginValue, .objValue acc k :: st⟩ else .error
    | .objNext acc :: st =>
      if c = ',' then .next ⟨.beginString, .objKey acc :: st⟩
      else if c = '}' then complete st (.obj acc) true
      else .error
    | .arrNext acc :: st =>
      if c = ',' then .next ⟨.beginValue, .arrValue acc :: st⟩
      else if c = ']' then complete st (.arr acc) true
      else .error
    | _ => .error

/-- The function `stateBeginValue`: the first character of a value. -/
def stepBeginValue (stack : List Frame) (c : Char) : Step :=
  if isSpace c then .next ⟨.beginValue, stack⟩
  else if c = '{' then
    if stack.length + 1 ≤ maxNestingDepth then .next ⟨.beginStringOrEmpty, .objKey [] :: stack⟩
    else .error
  else if c = '[' then
    if stack.length + 1 ≤ maxNestingDepth then .next ⟨.beginValueOrEmpty, .arrValue [] :: stack⟩
    else .error
  else if c = '"' then .next ⟨.inString [] none, stack⟩
  else if c = '-' then .next ⟨.inNumber .neg ⟨true, [], [], none⟩, stack⟩
  else if c = '0' then .next ⟨.inNumber .zero ⟨false, ['0'], [], none⟩, stack⟩
  else if c = 't' then .next ⟨.inLiteral ['r', 'u', 'e'] (.bool true), stack⟩
  else if c = 'f' then .next ⟨.inLiteral ['a', 'l', 's', 'e'] (.bool false), stack⟩
  else if c = 'n' then .next ⟨.inLiteral ['u', 'l', 'l'] .null, stack⟩
  else if '1' ≤ c && c ≤ '9' then .next ⟨.inNumber .int ⟨false, [c], [], none⟩, stack⟩
  else .error

/-- A character decoded inside a string literal: a pending high surrogate that
was not followed by its low half is replaced first. -/
def pushChar (acc : List Char) (hi : Option Nat) (c : Char) : List Char :=
  match hi with
  | none => acc ++ [c]
  | some _ => acc ++ [replacementChar, c]

/-- The end of a `\uXXXX` escape with code unit `u` (the function `unquote`):
surrogate halves are paired, and a half without its partner becomes the
replacement character. -/
def pushUnit (acc : List Char) (hi : Option Nat) (u : Nat) : Lex :=
  match hi with
  | some h =>
    if 0xDC00 ≤ u ∧ u < 0xE000 then
      .inString (acc ++ [Char.ofNat ((h - 0xD800) * 0x400 + (u - 0xDC00) + 0x10000)]) none
    else if 0xD800 ≤ u ∧ u < 0xDC00 then .inString (acc ++ [replacementChar]) (some u)
    else .inString (acc ++ [replacementChar, Char.ofNat u]) none
  | none =>
    if 0xD800 ≤ u ∧ u < 0xDC00 then .inString acc (some u)
    else if 0xDC00 ≤ u ∧ u < 0xE000 then .inString (acc ++ [replacementChar]) none
    else .inString (acc ++ [Char.ofNat u]) none

/-- The character an escape sequence `\c` stands for (all but `\u`). -/
def escapeChar (c : Char) : Option Char :=
  if c = '"' then some '"'
  else if c = '\\' then some '\\'
  else if c = '/' then some '/'
  else if c = 'b' then some (Char.ofNat 8)
  else if c = 'f' then some (Char.ofNat 12)
  else if c = 'n' then some '\n'
  else if c = 'r' then some '\r'
  else if c = 't' then some '\t'
  else none

/-- The number states of the scanner. A character that cannot continue the
literal ends it where the literal may end, and is then read by
`stateEndValue`. -/
def stepNumber (stack : List Frame) (phase : NumPhase) (n : NumLit) (c : Char) : Step :=
  let finish : Step :=
    match complete stack (.num n) false with
    | .next s => stepEndValue s.stack c
    | r => r
  match phase with
  | .neg =>
    if c = '0' then .next ⟨.inNumber .zero { n with int := ['0'] }, stack⟩
    else if '1' ≤ c && c ≤ '9' then .next ⟨.inNumber .int { n with int := [c] }, stack⟩
    else .error
  | .int =>
    if isDigit c then .next ⟨.inNumber .int { n with int := n.int ++ [c] }, stack⟩
    else if c = '.' then .next ⟨.inNumber .dot n, stack⟩
    else if c = 'e' || c = 'E' then .next ⟨.inNumber .e { n with exp := some (false, []) }, stack⟩
    else finish
  | .zero =>
    if c = '.' then .next ⟨.inNumber .dot n, stack⟩
    else if c = 'e' || c = 'E' then .next ⟨.inNumber .e { n with exp := some (false, []) }, stack⟩
    else finish
  | .dot =>
    if isDigit c then .next ⟨.inNumber .dot0 { n with frac := [c] }, stack⟩ else .error
  | .dot0 =>
    if isDigit c then .next ⟨.inNumber .dot0 { n with frac := n.frac ++ [c] }, stack⟩
    else if c = 'e' || c = 'E' then .next ⟨.inNumber .e { n with exp := some (false, []) }, stack⟩
    else finish
  | .e =>
    if c = '+' then .next ⟨.inNumber .eSign n, stack⟩
    else if c = '-' then .next ⟨.inNumber .eSign { n with exp := some (true, []) }, stack⟩
    else if isDigit c then
      .next ⟨.inNumber .e0 { n with exp := n.exp.map (fun x => (x.1, x.2 ++ [c])) }, stack⟩
    else .error
  | .eSign =>
    if isDigit c then
      .next ⟨.inNumber .e0 { n with exp := n.exp.map (fun x => (x.1, x.2 ++ [c])) }, stack⟩
    else .error
  | .e0 =>
    if isDigit c then
      .next ⟨.inNumber .e0 { n with exp := n.exp.map (fun x => (x.1, x.2 ++ [c])) }, stack⟩
    else finish

/-- One step of the scanner: the state reads the character `c`. -/
def step (s : Scanner) (c : Char) : Step :=
  match s.lex with
  | .beginValue => stepBeginValue s.stack c
  | .beginValueOrEmpty =>
    if isSpace c then .next s
    else if c = ']' then
      match s.stack with
      | .arrValue acc :: st => complete st (.arr acc) true
      | _ => .error
    else stepBeginValue s.stack c
  | .beginStringOrEmpty =>
    if isSpace c then .next s
    else if c = '}' then
      match s.stack with
      | .objKey acc :: st => complete st (.obj acc) true
      | _ => .error
    else if c = '"' then .next ⟨.inString [] none, s.stack⟩
    else .error
  | .beginString =>
    if isSpace c then .next s
    else if c = '"' then .next ⟨.inString [] none, s.stack⟩
    else .error
  | .endValue => stepEndValue s.stack c
  | .inString acc hi =>
    if c = '"' then
      completeString s.stack (String.mk (match hi with | none => acc | some _ => acc ++ [replacementChar]))
    else if c = '\\' then .next ⟨.inStringEsc acc hi, s.stack⟩
    else if c.toNat < 0x20 then .error
    else .next ⟨.inString (pushChar acc hi c) none, s.stack⟩
  | .inStringEsc acc hi =>
    if c = 'u' then .next ⟨.inStringEscU acc hi 0 0, s.stack⟩
    else match escapeChar c with
      | some d => .next ⟨.inString (pushChar acc hi d) none, s.stack⟩
      | none => .error
  | .inStringEscU acc hi val count =>
    match hexVal c with
    | none => .error
    | some h =>
      if count < 3 then .next ⟨.inStringEscU acc hi (val * 16 + h) (count + 1), s.stack⟩
      else .next ⟨pushUnit acc hi (val * 16 + h), s.stack⟩
  | .inNumber phase n => stepNumber s.stack phase n c
  | .inLiteral expect v =>
    match expect with
    | [] => .error
    | [e] => if c = e then complete s.stack v true else .error
    | e :: es => if c = e then .next ⟨.inLiteral es v, s.stack⟩ else .error

/-- The loop of `Decoder.readValue`: the scanner reads the stream up to the end
of its first value. At the end of the stream a space is fed to the scanner, which
ends a number at top level. The result is the value and the rest of the stream,
or nothing when the stream does not begin with a JSON value. -/
def scan : Scanner → List Char → Option (JSON × List Char)
  | s, [] =>
    match step s ' ' with
    | .done v _ => some (v, [])
    | _ => none
  | s, c :: cs =>
    match step s c with
    | .error => none
    | .done v consumed => some (v, if consumed then cs else c :: cs)
    | .next s' => scan s' cs

/-- The first JSON value of a body and what follows it. -/
def readValue (body : String) : Option (JSON × List Char) :=
  scan ⟨.beginValue, []⟩ body.data

/-- The function `json.Valid`: the body is one JSON value, with nothing but
white space around it. -/
def Valid (body : String) : Bool :=
  match readValue body with
  | some (_, rest) => rest.all isSpace
  | none => false

/-- The value of a sequence of decimal digits. -/
def digitsVal (ds : List Char) : Nat :=
  ds.foldl (fun n c => 10 * n + (c.toNat - '0'.toNat)) 0

/-- A number literal stored into an integer of `bits` bits:
`strconv.ParseInt(lit, 10, 64)`, which accepts a sign and digits only and
fails outside the 64-bit range, followed by `OverflowInt`. -/
def parseInt (bits : Nat) (n : NumLit) : Option Int :=
  if n.frac ≠ [] ∨ n.exp.isSome then none
  else
    let v : Int := if n.neg then -(digitsVal n.int : Int) else (digitsVal n.int : Int)
    if -(2 : Int) ^ 63 ≤ v ∧ v < (2 : Int) ^ 63 then
      if -(2 : Int) ^ (bits - 1) ≤ v ∧ v < (2 : Int) ^ (bits - 1) then some v else none
    else none

/-- A number literal stored into an `interface{}` becomes a `float64`:
`strconv.ParseFloat(lit, 64)` fails when the magnitude of the literal rounds
to infinity, that is from `2^1024 - 2^970` on. -/
def floatOverflow (n : NumLit) : Bool :=
  let m := digitsVal (n.int ++ n.frac)
  let e : Int :=
    (match n.exp with
      | none => (0 : Int)
      | some (neg, ds) => if neg then -(digitsVal ds : Int) else (digitsVal ds : Int))
    - (n.frac.length : Int)
  let limit : Nat := 2 ^ 1024 - 2 ^ 970
  if 0 ≤ e then decide (limit ≤ m * 10 ^ e.toNat)
  else decide (limit * 10 ^ (-e).toNat ≤ m)

mutual
/-- Every number of a value fits a `float64`. -/
def JSON.numbersFit : JSON → Bool
  | .num n => !floatOverflow n
  | .arr elems => numbersFitElems elems
  | .obj members => numbersFitMembers members
  | _ => true
/-- Every number of the elements of an array fits a `float64`. -/
def numbersFitElems : List JSON → Bool
  | [] => true
  | v :: vs => v.numbersFit && numbersFitElems vs
/-- Every number of the members of an object fits a `float64`. -/
def numbersFitMembers : List (String × JSON) → Bool
  | [] => true
  | (_, v) :: ms => v.numbersFit && numbersFitMembers ms
end

/-- The errors of `Decode`: the stream does not begin with a JSON value
(`io.EOF`, `io.ErrUnexpectedEOF`, `*json.SyntaxError`), or the value does not
fit the Go value it is decoded into (`*json.UnmarshalTypeError`). -/
inductive DecodeError where
  | Syntax
  | UnmarshalType
deriving DecidableEq, Repr

/-- Case folding of field names (`foldName`): ASCII letters, and the two
characters outside ASCII that fold to an ASCII letter, `ſ` and the Kelvin
sign. -/
def foldRune (c : Char) : Char :=
  if 'a' ≤ c && c ≤ 'z' then Char.ofNat (c.toNat - 32)
  else if c = Char.ofNat 0x17F then 'S'
  else if c = Char.ofNat 0x212A then 'K'
  else c

/-- A key matches the (ASCII) name of a field up to case. -/
def equalFold (name key : String) : Bool :=
  name.data.map foldRune = key.data.map foldRune

/-- The function `json.NewDecoder(r.Body).Decode(&jsonBody)` for
`var jsonBody map[string]interface{}`: the first value of the body has to be an
object or `null`, with numbers that fit a `float64`. What follows the first
value is not read. The map is represented by the object as scanned. -/
def DecodeMap (body : String) : Except DecodeError JSON :=
  match readValue body with
  | none => .error .Syntax
  | some (.obj members, _) =>
    if numbersFitMembers members then .ok (.obj members) else .error .UnmarshalType
  | some (.null, _) => .ok .null
  | some _ => .error .UnmarshalType

/-! ## Part 2: `router.go` -/

/-- The type `PlateRequestBody` (lines 110-116). A pointer field is an
`Option`: `nil` is `none`. The integer fields hold `int64`, `int16` and `int8`
values. -/
structure PlateRequestBody where
  QrID : String := ""
  ShopNumber : Option Int := none
  Hostname : String := ""
  PopNumber : Option Int := none
  State : Option Int := none
deriving DecidableEq, Repr

/-- The fields of `PlateRequestBody`. -/
inductive Field where
  | QrID | ShopNumber | Hostname | PopNumber | State
deriving DecidableEq, Repr

/-- The name of a field in JSON, from its tag. -/
def Field.tag : Field → String
  | .QrID => "qrId"
  | .ShopNumber => "shopNumber"
  | .Hostname => "hostname"
  | .PopNumber => "popNumber"
  | .State => "state"

def Field.all : List Field := [.QrID, .ShopNumber, .Hostname, .PopNumber, .State]

/-- The field a key of the object is stored into: the field of that name, and
otherwise the field of that name up to case. -/
def findField (key : String) : Option Field :=
  match Field.all.find? (fun f => f.tag = key) with
  | some f => some f
  | none => Field.all.find? (fun f => equalFold f.tag key)

/-- A JSON value stored into a field of type `string`: a string is stored,
`null` leaves the field as it is, anything else is an `UnmarshalTypeError`. -/
def storeString (old : String) : JSON → Option String
  | .str s => some s
  | .null => some old
  | _ => none

/-- A JSON value stored into a pointer to an integer of `bits` bits: `null`
sets the pointer to `nil`, an integer literal in range is stored, anything
else is an `UnmarshalTypeError`. -/
def storeIntPtr (bits : Nat) : JSON → Option (Option Int)
  | .null => some none
  | .num n => (parseInt bits n).map some
  | _ => none

/-- One member of the object is stored; a key that matches no field is
skipped. -/
def PlateRequestBody.store (b : PlateRequestBody) (key : String) (v : JSON) :
    Option PlateRequestBody :=
  match findField key with
  | none => some b
  | some .QrID => (storeString b.QrID v).map (fun s => { b with QrID := s })
  | some .ShopNumber => (storeIntPtr 64 v).map (fun p => { b with ShopNumber := p })
  | some .Hostname => (storeString b.Hostname v).map (fun s => { b with Hostname := s })
  | some .PopNumber => (storeIntPtr 16 v).map (fun p => { b with PopNumber := p })
  | some .State => (storeIntPtr 8 v).map (fun p => { b with State := p })

/-- The members of the object are stored in the order in which they are
written, so that the last of a duplicated key wins. -/
def storeMembers : PlateRequestBody → List (String × JSON) → Option PlateRequestBody
  | b, [] => some b
  | b, (k, v) :: ms =>
    match b.store k v with
    | none => none
    | some b' => storeMembers b' ms

/-- The function `json.NewDecoder(r.Body).Decode(&body)` for
`var body = PlateRequestBody{}` (lines 69-70): the first value of the body is
stored into the zero value. An object is stored member by member, `null`
leaves the zero value, anything else is an `UnmarshalTypeError`. What follows
the first value is not read. -/
def Decode (body : String) : Except DecodeError PlateRequestBody :=
  match readValue body with
  | none => .error .Syntax
  | some (.obj members, _) =>
    match storeMembers {} members with
    | some b => .ok b
    | none => .error .UnmarshalType
  | some (.null, _) => .ok {}
  | some _ => .error .UnmarshalType

/-- Modelled from the spec: the type `PlateStates` is declared outside
`router.go`; these are the three fields that `updatePlates` sets (the tag
identifier, the point-of-purchase number and the state). -/
structure PlateStates where
  QrID : String
  PopNumber : Int
  State : Int
deriving DecidableEq, Repr

/-- A value stored in a request context. -/
inductive CtxValue where
  | plate (b : PlateRequestBody)
  /-- a value of any other type -/
  | other (description : String)
deriving DecidableEq, Repr

/-- A `context.Context`, as the values stored under keys of type `string`,
latest first. -/
abbrev Context := List (String × CtxValue)

/-- The function `context.WithValue`. -/
def Context.WithValue (c : Context) (key : String) (val : CtxValue) : Context :=
  (key, val) :: c

/-- The method `Value` of a context: the latest value stored under the key. -/
def Context.Value : Context → String → Option CtxValue
  | [], _ => none
  | (k, v) :: c, key => if k = key then some v else Context.Value c key

/-- The constant `plateCtxKey` (line 14). -/
def plateCtxKey : String := "plateContext"

/-- An `*http.Request`: method, path, header, body and context. -/
structure Request where
  Method : String
  Path : String
  Header : List (String × String)
  Body : String
  ctx : Context
deriving DecidableEq, Repr

/-- The method `WithContext` of a request. -/
def Request.WithContext (r : Request) (c : Context) : Request :=
  { r with ctx := c }

/-- What a handler passes to `Succeed`: the anonymous
`struct { Status string }` with tag `json:"status"` of lines 30-32 and 45-47,
or the outcome of the update operation. -/
inductive Payload (δ : Type) where
  | status (Status : String)
  | data (d : δ)
deriving DecidableEq, Repr

/-- The JSON encoding of the status payload, by its tag. -/
def encodeStatus (Status : String) : List (String × String) := [("status", Status)]

/-- Modelled from the spec: a response as the client sees it, the status code
and the body, which is absent when only a status is written. -/
structure Response (δ : Type) where
  status : Nat
  body : Option (Payload δ)
deriving DecidableEq, Repr

/-- The levels of the zap logger. -/
inductive Level where
  | Debug | Info | Warn | Error
deriving DecidableEq, Repr

/-- The value of a field of a log entry. -/
inductive LogValue where
  /-- the field `zap.Any("body", r.Body)` -/
  | reader (body : String)
  /-- the field `zap.Any("header", r.Header)` -/
  | header (h : List (String × String))
  /-- the field `zap.Any("body", jsonBody)` -/
  | json (v : JSON)
  /-- the field `zap.Any("body", body)` -/
  | plate (b : PlateRequestBody)
  /-- the field `zap.Error(err)` of a decoding error -/
  | decodeError (e : DecodeError)
  /-- the field `zap.Error(err)` of the update operation -/
  | error (e : String)
  /-- a field `zap.String` -/
  | string (s : String)
deriving Repr

/-- An entry written through `Logger`. -/
structure LogEntry where
  level : Level
  msg : String
  fields : List (String × LogValue)
deriving Repr

/-- An invocation of the update operation `UpdatePlates`. -/
structure UpdateCall where
  ctx : Context
  shopNumber : Int
  states : PlateStates
deriving DecidableEq, Repr

/-- What a handler acts on: the responses written to the
`http.ResponseWriter`, the entries written to `Logger`, the invocations of the
update operation so far, and the state `store` of the update operation. -/
structure World (σ δ : Type) where
  written : List (Response δ)
  logs : List LogEntry
  calls : List UpdateCall
  store : σ

/-- The update operation `UpdatePlates(ctx, shopNumber, states)`, declared
outside `router.go`: it acts on its own state and returns a result or an
error. -/
abbrev UpdateOp (σ δ : Type) := σ → Context → Int → PlateStates → Except String δ × σ

/-- A run-time panic of a handler. -/
inductive Panic where
  | nilDereference
deriving DecidableEq, Repr

/-- An `http.Handler`: it serves a request, or panics. -/
abbrev Handler (σ δ : Type) := Request → World σ δ → Except Panic (World σ δ)

def StatusOK : Nat := 200
def StatusBadRequest : Nat := 400
def StatusInternalServerError : Nat := 500

/-- Modelled from the spec: `Succeed(w, payload)` is declared outside
`router.go`; "success wraps the given payload in a 200-status JSON body". -/
def Succeed {σ δ : Type} (payload : Payload δ) (w : World σ δ) : World σ δ :=
  { w with written := w.written ++ [⟨StatusOK, some payload⟩] }

/-- Modelled from the spec: `Fail(w, status)` is declared outside `router.go`;
"failure writes only the given HTTP status code with no structured error
body". -/
def Fail {σ δ : Type} (status : Nat) (w : World σ δ) : World σ δ :=
  { w with written := w.written ++ [⟨status, none⟩] }

/-- Modelled from the spec: `Logger` is declared outside `router.go`; a call of
`Logger.Debug`, `Logger.Info`, `Logger.Warn` or `Logger.Error` writes one
entry, with its level, message and fields, to the logging sink. -/
def Logger {σ δ : Type} (level : Level) (msg : String) (fields : List (String × LogValue))
    (w : World σ δ) : World σ δ :=
  { w with logs := w.logs ++ [⟨level, msg, fields⟩] }

/-- The handler `healthCheck` (lines 28-33). -/
def healthCheck {σ δ : Type} : Handler σ δ := fun _ w =>
  .ok (Succeed (.status "healthy") w)

/-- The handler `loggingEventData` (lines 35-48). -/
def loggingEventData {σ δ : Type} : Handler σ δ := fun r w =>
  match DecodeMap r.Body with
  | .error err =>
    let w := Logger .Warn "Request Body is invalid:"
      [("body", .reader r.Body), ("error", .decodeError err)] w
    .ok (Fail StatusBadRequest w)
  | .ok jsonBody =>
    let w := Logger .Info "logging event request data:"
      [("header", .header r.Header), ("body", .json jsonBody)] w
    .ok (Succeed (.status "healthy") w)

/-- The handler `updatePlates` (lines 50-63). The type assertion with `b, _ :=`
gives the zero value when the context holds no `PlateRequestBody` under the
key; the three dereferences are evaluated in the order of the arguments, and a
`nil` pointer panics before `UpdatePlates` is called. -/
def updatePlates {σ δ : Type} (UpdatePlates : UpdateOp σ δ) : Handler σ δ := fun r w =>
  let b : PlateRequestBody :=
    match r.ctx.Value plateCtxKey with
    | some (.plate b) => b
    | _ => {}
  match b.ShopNumber with
  | none => .error .nilDereference
  | some shopNumber =>
    match b.PopNumber with
    | none => .error .nilDereference
    | some popNumber =>
      match b.State with
      | none => .error .nilDereference
      | some state =>
        let states : PlateStates := { QrID := b.QrID, PopNumber := popNumber, State := state }
        let result := UpdatePlates w.store r.ctx shopNumber states
        let w := { w with calls := w.calls ++ [⟨r.ctx, shopNumber, states⟩], store := result.2 }
        match result.1 with
        | .error err =>
          let w := Logger .Error "Failed to update plates:" [("error", .error err)] w
          .ok (Fail StatusInternalServerError w)
        | .ok data => .ok (Succeed (.data data) w)

/-- The slice `errMessages` of `validateUpdatePlatesRequest` (lines 77-92), for
a decoded body. -/
def errMessages (body : PlateRequestBody) : List String :=
  let errMessages : List String := []
  let errMessages := if body.QrID = "" then errMessages ++ ["Missing qrId"] else errMessages
  let errMessages :=
    if body.ShopNumber = none then errMessages ++ ["Missing shopNumber"] else errMessages
  let errMessages :=
    if body.Hostname = "" then errMessages ++ ["Missing hostname"] else errMessages
  let errMessages :=
    if body.PopNumber = none then errMessages ++ ["Missing popNumber"] else errMessages
  let errMessages :=
    if (match body.State with
        | none => true
        | some state => decide (state < 0) || decide (state > 1))
    then errMessages ++ ["Missing state"] else errMessages
  errMessages

/-- The middleware `validateUpdatePlatesRequest` (lines 65-108), applied to the
handler `next`. -/
def validateUpdatePlatesRequest {σ δ : Type} (next : Handler σ δ) : Handler σ δ := fun r w =>
  match Decode r.Body with
  | .error err =>
    let w := Logger .Warn "Request Body is invalid:"
      [("body", .reader r.Body), ("error", .decodeError err)] w
    .ok (Fail StatusBadRequest w)
  | .ok body =>
    let errMessages := errMessages body
    if errMessages.length ≠ 0 then
      let w := Logger .Warn "Request Body value is invalid:"
        [("body", .reader r.Body), ("errs", .string (",".intercalate errMessages))] w
      .ok (Fail StatusBadRequest w)
    else
      let w := Logger .Debug "body:" [("body", .plate body)] w
      let c := r.ctx
      let c := c.WithValue plateCtxKey (.plate body)
      next (r.WithContext c) w

/-- The routes of `Router` (lines 16-26): the handler of a method and a path,
if the router has one. `middleware.Logger` writes an access log line of its
own for every request and leaves request and response as they are. -/
def Router {σ δ : Type} (UpdatePlates : UpdateOp σ δ) (method path : String) :
    Option (Handler σ δ) :=
  if method = "GET" ∧ path = "/" then some healthCheck
  else if method = "POST" ∧ path = "/" then some loggingEventData
  else if method = "POST" ∧ path = "/v1/plates" then
    some (validateUpdatePlatesRequest (updatePlates UpdatePlates))
  else none

/-! ## Part 3: the specification's rules, and the properties -/

/-- The five field rules of the specification (section 4.1, step 2), in the
order in which it lists them. -/
inductive Rule where
  | qrId | shopNumber | hostname | popNumber | state
deriving DecidableEq, Repr

def Rule.all : List Rule := [.qrId, .shopNumber, .hostname, .popNumber, .state]

/-- The message of a rule. -/
def Rule.message : Rule → String
  | .qrId => "Missing qrId"
  | .shopNumber => "Missing shopNumber"
  | .hostname => "Missing hostname"
  | .popNumber => "Missing popNumber"
  | .state => "Missing state"

/-- The specification's words: `qrId` must be a non-empty string, `shopNumber`
must be present, `hostname` must be a non-empty string, `popNumber` must be
present, `state` must be present and within the inclusive range [0, 1]. -/
def Rule.holds (body : PlateRequestBody) : Rule → Prop
  | .qrId => body.QrID ≠ ""
  | .shopNumber => body.ShopNumber ≠ none
  | .hostname => body.Hostname ≠ ""
  | .popNumber => body.PopNumber ≠ none
  | .state => ∃ s, body.State = some s ∧ 0 ≤ s ∧ s ≤ 1

instance (body : PlateRequestBody) (rule : Rule) : Decidable (rule.holds body) :=
  match rule with
  | .qrId => inferInstanceAs (Decidable (body.QrID ≠ ""))
  | .shopNumber => inferInstanceAs (Decidable (body.ShopNumber ≠ none))
  | .hostname => inferInstanceAs (Decidable (body.Hostname ≠ ""))
  | .popNumber => inferInstanceAs (Decidable (body.PopNumber ≠ none))
  | .state =>
    decidable_of_iff (∃ s ∈ body.State, 0 ≤ s ∧ s ≤ 1)
      (by simp only [Rule.holds, Option.mem_def])

/-- The specification's violation list: the messages of the violated rules, in
the order of the rules. -/
def violations (body : PlateRequestBody) : List String :=
  (Rule.all.filter (fun rule => decide (¬ rule.holds body))).map Rule.message

/-- All five field rules hold. -/
def FieldRules (body : PlateRequestBody) : Prop :=
  ∀ rule : Rule, rule.holds body

instance (body : PlateRequestBody) : Decidable (FieldRules body) :=
  decidable_of_iff (∀ rule ∈ Rule.all, rule.holds body)
    ⟨fun h rule => h rule (by cases rule <;> simp [Rule.all]), fun h rule _ => h rule⟩

/-- The request that `validateUpdatePlatesRequest` passes to the next handler
for a request `r` with decoded body `body` (lines 103-105). -/
def forwarded (r : Request) (body : PlateRequestBody) : Request :=
  r.WithContext (r.ctx.WithValue plateCtxKey (.plate body))

/-- The warning of lines 72 and 39, for a body that does not decode. -/
def parseWarning (r : Request) (err : DecodeError) : LogEntry :=
  ⟨.Warn, "Request Body is invalid:", [("body", .reader r.Body), ("error", .decodeError err)]⟩

/-- The warning of lines 94-97, with the violation list joined by commas. -/
def fieldWarning (r : Request) (errs : List String) : LogEntry :=
  ⟨.Warn, "Request Body value is invalid:",
    [("body", .reader r.Body), ("errs", .string (",".intercalate errs))]⟩

/-- The response of `Fail(w, status)`. -/
def failure (δ : Type) (status : Nat) : Response δ := ⟨status, none⟩

/-- The response of `Succeed(w, payload)`. -/
def success {δ : Type} (payload : Payload δ) : Response δ := ⟨StatusOK, some payload⟩

/-- A request to `POST /v1/plates` with the given body, no header and an empty
context. -/
def plateRequest (body : String) : Request :=
  { Method := "POST", Path := "/v1/plates", Header := [], Body := body, ctx := [] }

/-- The valid body of the specification's section 8. -/
def validBody : String :=
  "\x7b\"qrId\":\"Q1\",\"shopNumber\":7,\"hostname\":\"dev1\",\"popNumber\":3,\"state\":1\x7d"

/-- The body `validBody` with another hostname. -/
def validBodyOtherHost : String :=
  "\x7b\"qrId\":\"Q1\",\"shopNumber\":7,\"hostname\":\"dev2\",\"popNumber\":3,\"state\":1\x7d"

/-- The body `validBody` with the given text in place of the value of
`state`. -/
def bodyWithState (state : String) : String :=
  "\x7b\"qrId\":\"Q1\",\"shopNumber\":7,\"hostname\":\"dev1\",\"popNumber\":3,\"state\":"
    ++ state ++ "\x7d"

/-- The body `validBody` without the member `state`. -/
def bodyWithoutState : String :=
  "\x7b\"qrId\":\"Q1\",\"shopNumber\":7,\"hostname\":\"dev1\",\"popNumber\":3\x7d"

/-- A world in which nothing has happened yet; the state of the update
operation counts its invocations. -/
def world0 : World Nat String := { written := [], logs := [], calls := [], store := 0 }

/-- An update operation that succeeds: it returns the tag identifier. -/
def updateOk : UpdateOp Nat String := fun store _ _ states => (.ok states.QrID, store + 1)

/-- An update operation that fails. -/
def updateFails : UpdateOp Nat String := fun store _ _ _ => (.error "unavailable", store + 1)

/-- A request to `POST /` with the given body, no header and an empty
context. -/
def eventRequest (body : String) : Request :=
  { Method := "POST", Path := "/", Header := [], Body := body, ctx := [] }

/-- An update operation that reads the validated body from its context
argument and returns the hostname it finds there. -/
def updateEchoHost : UpdateOp Nat String := fun store ctx _ _ =>
  match ctx.Value plateCtxKey with
  | some (.plate b) => (.ok b.Hostname, store + 1)
  | _ => (.error "no body", store + 1)

/-- The debug entry of line 101. -/
def debugEntry (body : PlateRequestBody) : LogEntry :=
  ⟨.Debug, "body:", [("body", .plate body)]⟩

/-- The info entry of line 44. -/
def eventEntry (r : Request) (jsonBody : JSON) : LogEntry :=
  ⟨.Info, "logging event request data:", [("header", .header r.Header), ("body", .json jsonBody)]⟩

/-- The error entry of line 58. -/
def updateErrorEntry (err : String) : LogEntry :=
  ⟨.Error, "Failed to update plates:", [("error", .error err)]⟩

set_option maxRecDepth 100000
set_option exponentiation.threshold 2000

/-! ### The decoder on some bodies -/

/-- What `Decode` into a `PlateRequestBody` does with some bodies: an empty or
truncated body is a syntax error; an array, a number out of the range of the
field, a number with a fraction and a string for a number are type errors;
`null` and unknown members leave the zero value; keys match up to case, the
last of the members of a key wins, and escapes in strings are decoded. -/
theorem Decode_examples :
    Decode "" = .error .Syntax ∧
    Decode "\x7b\"qrId\":\"Q1\"" = .error .Syntax ∧
    Decode "\x7b\"qrId\":\"Q1\",\x7d" = .error .Syntax ∧
    Decode "[]" = .error .UnmarshalType ∧
    Decode "\x7b\"state\":128\x7d" = .error .UnmarshalType ∧
    Decode "\x7b\"state\":1.0\x7d" = .error .UnmarshalType ∧
    Decode "\x7b\"state\":\"1\"\x7d" = .error .UnmarshalType ∧
    Decode "\x7b\"qrId\":5\x7d" = .error .UnmarshalType ∧
    Decode "null" = .ok { } ∧
    Decode " \x7b\"other\":[1e999,\x7b\"state\":true\x7d]\x7d " = .ok { } ∧
    Decode "\x7b\"STATE\":-128,\"PopNumber\":32767\x7d" =
      .ok { PopNumber := some 32767, State := some (-128) } ∧
    Decode "\x7b\"state\":1,\"state\":null,\"hostname\":\"a\",\"hostname\":null\x7d" =
      .ok { Hostname := "a" } ∧
    Decode "\x7b\"qrId\":\"\\u0051\\\"1\"\x7d" = .ok { QrID := "Q\"1" } := by
  refine ⟨by rfl, by rfl, by rfl, by rfl, by rfl, by rfl, by rfl, by rfl, by rfl, by rfl,
    by rfl, by rfl, by rfl⟩

/-- What `Decode` into a `map[string]interface{}` does with some bodies: the
first value has to be an object or `null`, and its numbers have to fit a
`float64`. -/
theorem DecodeMap_examples :
    DecodeMap "" = .error .Syntax ∧
    DecodeMap "[1,2]" = .error .UnmarshalType ∧
    DecodeMap "\"event\"" = .error .UnmarshalType ∧
    DecodeMap "\x7b\"n\":[1e999]\x7d" = .error .UnmarshalType ∧
    DecodeMap "null" = .ok .null ∧
    DecodeMap "\x7b\x7d" = .ok (.obj []) ∧
    DecodeMap "\x7b\"n\":1e308\x7d" = .ok (.obj [("n", .num ⟨false, ['1'], [], some (false, ['3', '0', '8'])⟩)]) := by
  refine ⟨by rfl, by rfl, by rfl, by rfl, by rfl, by rfl, by rfl⟩

/-! ### The violation list -/

theorem errMessages_eq_violations (body : PlateRequestBody) :
    errMessages body = violations body := by
  rcases body with ⟨q, s, h, p, st⟩
  have key : ∀ b : Bool, ((∃ t, st = some t ∧ 0 ≤ t ∧ t ≤ 1) ↔ b = false) →
      (match st with
        | none => true
        | some state => decide (state < 0) || decide (state > 1)) = b := by
    intro b hb
    cases st with
    | none => cases b <;> simp_all
    | some t =>
      have hb' : (0 ≤ t ∧ t ≤ 1) ↔ b = false := by simpa using hb
      cases b
      · have := hb'.2 rfl
        simp only [Bool.or_eq_false_iff, decide_eq_false_iff_not]; omega
      · have : ¬ (0 ≤ t ∧ t ≤ 1) := fun h => by simpa using hb'.1 h
        simp only [Bool.or_eq_true, decide_eq_true_eq]; omega
  by_cases hx : ∃ t, st = some t ∧ 0 ≤ t ∧ t ≤ 1
  · have e := key false (by simp [hx])
    by_cases hq : q = "" <;> by_cases hs : s = none <;> by_cases hh : h = "" <;>
      by_cases hp : p = none <;>
      simp [errMessages, violations, Rule.all, Rule.holds, Rule.message, e, hq, hs, hh, hp, hx]
  · have e := key true (by simp [hx])
    by_cases hq : q = "" <;> by_cases hs : s = none <;> by_cases hh : h = "" <;>
      by_cases hp : p = none <;>
      simp [errMessages, violations, Rule.all, Rule.holds, Rule.message, e, hq, hs, hh, hp, hx]

theorem Rule.message_injective : Function.Injective Rule.message := by
  intro a b h
  cases a <;> cases b <;> first | rfl | (exact absurd h (by decide))

theorem Rule.mem_all (rule : Rule) : rule ∈ Rule.all := by
  cases rule <;> simp [Rule.all]

theorem mem_violations (body : PlateRequestBody) (rule : Rule) :
    rule.message ∈ violations body ↔ ¬ rule.holds body := by
  simp only [violations, List.mem_map, List.mem_filter, decide_eq_true_eq]
  constructor
  · rintro ⟨a, ⟨_, ha⟩, hm⟩
    rw [← Rule.message_injective hm]; exact ha
  · intro h
    exact ⟨rule, ⟨rule.mem_all, h⟩, rfl⟩

theorem violations_sublist (body : PlateRequestBody) :
    List.Sublist (violations body) (Rule.all.map Rule.message) :=
  List.Sublist.map _ (List.filter_sublist _)

theorem violations_eq_nil_iff (body : PlateRequestBody) :
    violations body = [] ↔ FieldRules body := by
  simp only [violations, List.map_eq_nil_iff, List.filter_eq_nil_iff, decide_eq_true_eq,
    not_not, FieldRules]
  exact ⟨fun h rule => h rule rule.mem_all, fun h rule _ => h rule⟩

theorem errMessages_eq_nil_iff (body : PlateRequestBody) :
    errMessages body = [] ↔ FieldRules body := by
  rw [errMessages_eq_violations, violations_eq_nil_iff]

/-! ### The three ways through `validateUpdatePlatesRequest` -/

theorem validate_of_decode_error {σ δ : Type} (next : Handler σ δ) (r : Request)
    (w : World σ δ) (err : DecodeError) (h : Decode r.Body = .error err) :
    validateUpdatePlatesRequest next r w =
      .ok ⟨w.written ++ [failure δ StatusBadRequest], w.logs ++ [parseWarning r err],
        w.calls, w.store⟩ := by
  simp [validateUpdatePlatesRequest, h, Fail, Logger, failure, parseWarning]

theorem validate_of_violation {σ δ : Type} (next : Handler σ δ) (r : Request)
    (w : World σ δ) (body : PlateRequestBody) (h : Decode r.Body = .ok body)
    (hv : errMessages body ≠ []) :
    validateUpdatePlatesRequest next r w =
      .ok ⟨w.written ++ [failure δ StatusBadRequest],
        w.logs ++ [fieldWarning r (errMessages body)], w.calls, w.store⟩ := by
  simp [validateUpdatePlatesRequest, h, hv, Fail, Logger, failure, fieldWarning]

theorem validate_of_valid {σ δ : Type} (next : Handler σ δ) (r : Request)
    (w : World σ δ) (body : PlateRequestBody) (h : Decode r.Body = .ok body)
    (hv : errMessages body = []) :
    validateUpdatePlatesRequest next r w =
      next (forwarded r body) ⟨w.written, w.logs ++ [debugEntry body], w.calls, w.store⟩ := by
  simp [validateUpdatePlatesRequest, h, hv, Logger, forwarded, debugEntry]

/-- C1. For every request body that decodes into a `PlateRequestBody`, the
slice `errMessages` built by `validateUpdatePlatesRequest` is the list of the
messages of the violated rules, in the order of the rules: a sub-list of the
five messages that holds the message of a rule exactly when the rule is
violated. When it is not empty the request is answered with status 400 and the
whole list is logged, joined by commas. The body `{}` yields all five
messages. -/
theorem errMessages_lists_every_violation {σ δ : Type} (next : Handler σ δ) (r : Request)
    (w : World σ δ) (body : PlateRequestBody) (h : Decode r.Body = .ok body) :
    errMessages body = violations body ∧
    List.Sublist (errMessages body)
      ["Missing qrId", "Missing shopNumber", "Missing hostname", "Missing popNumber",
        "Missing state"] ∧
    (∀ rule : Rule, rule.message ∈ errMessages body ↔ ¬ rule.holds body) ∧
    (errMessages body ≠ [] →
      validateUpdatePlatesRequest next r w =
        .ok ⟨w.written ++ [failure δ StatusBadRequest],
          w.logs ++ [fieldWarning r (violations body)], w.calls, w.store⟩) ∧
    (r.Body = "\x7b\x7d" →
      errMessages body =
        ["Missing qrId", "Missing shopNumber", "Missing hostname", "Missing popNumber",
          "Missing state"]) := by
  refine ⟨errMessages_eq_violations body, ?_, ?_, ?_, ?_⟩
  · rw [errMessages_eq_violations]; exact violations_sublist body
  · intro rule; rw [errMessages_eq_violations]; exact mem_violations body rule
  · intro hv
    rw [validate_of_violation next r w body h hv, errMessages_eq_violations]
  · intro hb
    rw [hb] at h
    have hd : Decode "\x7b\x7d" = .ok {} := by rfl
    rw [hd] at h
    cases h
    rfl

/-- Witness of C1: the body `{"qrId":"Q1"}` is answered with status 400, and
the log holds the four messages of the rules it violates. -/
theorem errMessages_lists_every_violation_witness :
    Decode "\x7b\"qrId\":\"Q1\"\x7d" = .ok { QrID := "Q1" } ∧
    errMessages { QrID := "Q1" } =
      ["Missing shopNumber", "Missing hostname", "Missing popNumber", "Missing state"] ∧
    (validateUpdatePlatesRequest (updatePlates updateOk)
        (plateRequest "\x7b\"qrId\":\"Q1\"\x7d") world0).toOption.map (fun w => w.written) =
      some [failure String 400] := by
  have hd : Decode (plateRequest "\x7b\"qrId\":\"Q1\"\x7d").Body = .ok { QrID := "Q1" } := by rfl
  have h := errMessages_lists_every_violation (updatePlates updateOk)
    (plateRequest "\x7b\"qrId\":\"Q1\"\x7d") world0 { QrID := "Q1" } hd
  refine ⟨hd, by decide, ?_⟩
  rw [h.2.2.2.1 (by decide)]
  rfl

/-- C2. On `POST /v1/plates` the router runs `validateUpdatePlatesRequest`
with `updatePlates` as the next handler. The middleware invokes the next
handler exactly when the body decodes and all five field rules hold: then its
result is the result of the next handler on the forwarded request. In every
other case it responds with status 400 whatever the next handler is, so that
the next handler is not invoked, and the update operation is neither called
nor its state changed. -/
theorem validate_invokes_next_iff {σ δ : Type} (UpdatePlates : UpdateOp σ δ)
    (next : Handler σ δ) (r : Request) (w : World σ δ) :
    Router UpdatePlates "POST" "/v1/plates" =
      some (validateUpdatePlatesRequest (updatePlates UpdatePlates)) ∧
    (∀ body, Decode r.Body = .ok body → FieldRules body →
      validateUpdatePlatesRequest next r w =
        next (forwarded r body) ⟨w.written, w.logs ++ [debugEntry body], w.calls, w.store⟩) ∧
    ((¬ ∃ body, Decode r.Body = .ok body ∧ FieldRules body) →
      ∃ w' : World σ δ,
        (∀ next' : Handler σ δ, validateUpdatePlatesRequest next' r w = .ok w') ∧
        w'.written = w.written ++ [failure δ StatusBadRequest] ∧
        w'.calls = w.calls ∧ w'.store = w.store) := by
  refine ⟨by simp [Router], ?_, ?_⟩
  · intro body h hv
    exact validate_of_valid next r w body h ((errMessages_eq_nil_iff body).2 hv)
  · intro hno
    cases h : Decode r.Body with
    | error err =>
      exact ⟨_, fun next' => validate_of_decode_error next' r w err h, rfl, rfl, rfl⟩
    | ok body =>
      have hv : errMessages body ≠ [] := fun he =>
        hno ⟨body, h, (errMessages_eq_nil_iff body).1 he⟩
      exact ⟨_, fun next' => validate_of_violation next' r w body h hv, rfl, rfl, rfl⟩

/-! ### The field `State` after decoding -/

theorem store_State_of_other_key (b b' : PlateRequestBody) (key : String) (v : JSON)
    (h : b.store key v = some b') (hk : findField key ≠ some .State) :
    b'.State = b.State := by
  unfold PlateRequestBody.store at h
  split at h
  · cases h; rfl
  all_goals first
    | (rename_i hf; exact absurd hf hk)
    | (simp only [Option.map_eq_some'] at h
       obtain ⟨_, _, rfl⟩ := h
       rfl)

theorem storeMembers_State_of_other_keys (members : List (String × JSON))
    (b b' : PlateRequestBody) (h : storeMembers b members = some b')
    (hk : ∀ m ∈ members, findField m.1 ≠ some .State) :
    b'.State = b.State := by
  induction members generalizing b with
  | nil => simp only [storeMembers, Option.some.injEq] at h; rw [← h]
  | cons m ms ih =>
    obtain ⟨k, v⟩ := m
    simp only [storeMembers] at h
    cases hs : b.store k v with
    | none => rw [hs] at h; cases h
    | some b₁ =>
      rw [hs] at h
      rw [ih b₁ h (fun m hm => hk m (List.mem_cons_of_mem _ hm)),
        store_State_of_other_key b b₁ k v hs (hk (k, v) (List.mem_cons_self _ _))]

theorem storeMembers_append (xs ys : List (String × JSON)) (b : PlateRequestBody) :
    storeMembers b (xs ++ ys) = (storeMembers b xs).bind (fun b₁ => storeMembers b₁ ys) := by
  induction xs generalizing b with
  | nil => simp [storeMembers]
  | cons m ms ih =>
    obtain ⟨k, v⟩ := m
    simp only [List.cons_append, storeMembers]
    cases b.store k v with
    | none => rfl
    | some b₁ => exact ih b₁

theorem storeMembers_State_of_null (before after : List (String × JSON)) (key : String)
    (b b' : PlateRequestBody)
    (h : storeMembers b (before ++ (key, .null) :: after) = some b')
    (hkey : findField key = some .State)
    (hk : ∀ m ∈ after, findField m.1 ≠ some .State) :
    b'.State = none := by
  rw [storeMembers_append] at h
  cases h₁ : storeMembers b before with
  | none => rw [h₁] at h; cases h
  | some b₁ =>
    rw [h₁] at h
    simp only [Option.some_bind, storeMembers, PlateRequestBody.store, hkey, storeIntPtr,
      Option.map_some'] at h
    rw [storeMembers_State_of_other_keys after _ b' h hk]

theorem Decode_object {body : String} {b : PlateRequestBody} {members : List (String × JSON)}
    {rest : List Char} (h : Decode body = .ok b)
    (hr : readValue body = some (.obj members, rest)) :
    storeMembers {} members = some b := by
  simp only [Decode, hr] at h
  cases hs : storeMembers {} members with
  | none => rw [hs] at h; cases h
  | some b₁ => rw [hs] at h; cases h; rfl

/-- C3. For every body posted to `POST /v1/plates` that decodes and whose
other four fields are valid: with `state` 0 or 1 the validation passes and the
next handler is invoked; with `state` 2, with `state` -1, with any other 8-bit
value outside [0, 1], and with `state` absent or `null` the violation list is
`["Missing state"]` and the response is status 400. A `state` that is absent
(no member of the object has a key that matches `state`) or `null` (the last
member whose key matches `state` is `null`) is a `nil` pointer after
decoding. -/
theorem state_boundary {σ δ : Type} (next : Handler σ δ) (r : Request) (w : World σ δ)
    (body : PlateRequestBody) (h : Decode r.Body = .ok body)
    (hq : Rule.qrId.holds body) (hs : Rule.shopNumber.holds body)
    (hh : Rule.hostname.holds body) (hp : Rule.popNumber.holds body) :
    ((body.State = some 0 ∨ body.State = some 1) →
      validateUpdatePlatesRequest next r w =
        next (forwarded r body) ⟨w.written, w.logs ++ [debugEntry body], w.calls, w.store⟩) ∧
    ((body.State = some 2 ∨ body.State = some (-1) ∨ body.State = none ∨
        ∃ s : Int, body.State = some s ∧ -128 ≤ s ∧ s ≤ 127 ∧ s ≠ 0 ∧ s ≠ 1) →
      errMessages body = ["Missing state"] ∧
      validateUpdatePlatesRequest next r w =
        .ok ⟨w.written ++ [failure δ StatusBadRequest],
          w.logs ++ [fieldWarning r ["Missing state"]], w.calls, w.store⟩) ∧
    (∀ (members : List (String × JSON)) (rest : List Char),
      readValue r.Body = some (.obj members, rest) →
      (∀ m ∈ members, findField m.1 ≠ some .State) → body.State = none) ∧
    (∀ (before after : List (String × JSON)) (key : String) (rest : List Char),
      readValue r.Body = some (.obj (before ++ (key, .null) :: after), rest) →
      findField key = some .State →
      (∀ m ∈ after, findField m.1 ≠ some .State) → body.State = none) := by
  have hrest : ∀ rule : Rule, rule ≠ .state → rule.holds body := by
    intro rule hne
    cases rule
    · exact hq
    · exact hs
    · exact hh
    · exact hp
    · exact absurd rfl hne
  refine ⟨?_, ?_, ?_, ?_⟩
  · intro hst
    apply validate_of_valid next r w body h
    rw [errMessages_eq_nil_iff]
    intro rule
    by_cases hr : rule = .state
    · subst hr
      rcases hst with hst | hst
      · exact ⟨0, hst, by decide, by decide⟩
      · exact ⟨1, hst, by decide, by decide⟩
    · exact hrest rule hr
  · intro hst
    have hbad : ¬ Rule.state.holds body := by
      rintro ⟨t, ht, h0, h1⟩
      rcases hst with hst | hst | hst | ⟨s, hst, _, _, hs0, hs1⟩ <;> rw [hst] at ht
      · cases ht; omega
      · cases ht; omega
      · cases ht
      · cases ht; omega
    have hlist : errMessages body = ["Missing state"] := by
      rw [errMessages_eq_violations]
      simp only [violations, Rule.all, List.filter_cons, List.filter_nil, decide_eq_true_eq,
        not_not]
      simp [hrest, hbad, Rule.message]
    refine ⟨hlist, ?_⟩
    rw [validate_of_violation next r w body h (by rw [hlist]; simp), hlist]
  · intro members rest hr hk
    exact storeMembers_State_of_other_keys members {} body (Decode_object h hr) hk
  · intro before after key rest hr hkey hk
    exact storeMembers_State_of_null before after key {} body (Decode_object h hr) hkey hk

/-- Witness of C3: the bodies with `state` 0 and 1 reach the update operation,
the bodies with `state` 2, -1, -128 and `null` and the body without `state`
are answered with status 400. -/
theorem state_boundary_witness :
    (validateUpdatePlatesRequest (updatePlates updateOk) (plateRequest (bodyWithState "0"))
        world0).toOption.map (fun w => w.written) = some [success (.data "Q1")] ∧
    (validateUpdatePlatesRequest (updatePlates updateOk) (plateRequest (bodyWithState "1"))
        world0).toOption.map (fun w => w.written) = some [success (.data "Q1")] ∧
    (validateUpdatePlatesRequest (updatePlates updateOk) (plateRequest (bodyWithState "2"))
        world0).toOption.map (fun w => w.written) = some [failure String 400] ∧
    (validateUpdatePlatesRequest (updatePlates updateOk) (plateRequest (bodyWithState "-1"))
        world0).toOption.map (fun w => w.written) = some [failure String 400] ∧
    (validateUpdatePlatesRequest (updatePlates updateOk) (plateRequest (bodyWithState "-128"))
        world0).toOption.map (fun w => w.written) = some [failure String 400] ∧
    (validateUpdatePlatesRequest (updatePlates updateOk) (plateRequest (bodyWithState "null"))
        world0).toOption.map (fun w => w.written) = some [failure String 400] ∧
    (validateUpdatePlatesRequest (updatePlates updateOk) (plateRequest bodyWithoutState)
        world0).toOption.map (fun w => w.written) = some [failure String 400] := by
  have d0 : Decode (plateRequest (bodyWithState "0")).Body =
      .ok ⟨"Q1", some 7, "dev1", some 3, some 0⟩ := by rfl
  have d1 : Decode (plateRequest (bodyWithState "1")).Body =
      .ok ⟨"Q1", some 7, "dev1", some 3, some 1⟩ := by rfl
  have d2 : Decode (plateRequest (bodyWithState "2")).Body =
      .ok ⟨"Q1", some 7, "dev1", some 3, some 2⟩ := by rfl
  have d3 : Decode (plateRequest (bodyWithState "-1")).Body =
      .ok ⟨"Q1", some 7, "dev1", some 3, some (-1)⟩ := by rfl
  have d4 : Decode (plateRequest (bodyWithState "-128")).Body =
      .ok ⟨"Q1", some 7, "dev1", some 3, some (-128)⟩ := by rfl
  have d5 : Decode (plateRequest (bodyWithState "null")).Body =
      .ok ⟨"Q1", some 7, "dev1", some 3, none⟩ := by rfl
  have d6 : Decode (plateRequest bodyWithoutState).Body =
      .ok ⟨"Q1", some 7, "dev1", some 3, none⟩ := by rfl
  refine ⟨?_, ?_, ?_, ?_, ?_, ?_, ?_⟩
  · rw [(state_boundary (updatePlates updateOk) _ world0 _ d0
      (by decide) (by decide) (by decide) (by decide)).1 (Or.inl rfl)]
    rfl
  · rw [(state_boundary (updatePlates updateOk) _ world0 _ d1
      (by decide) (by decide) (by decide) (by decide)).1 (Or.inr rfl)]
    rfl
  · rw [((state_boundary (updatePlates updateOk) _ world0 _ d2
      (by decide) (by decide) (by decide) (by decide)).2.1 (Or.inl rfl)).2]
    rfl
  · rw [((state_boundary (updatePlates updateOk) _ world0 _ d3
      (by decide) (by decide) (by decide) (by decide)).2.1 (Or.inr (Or.inl rfl))).2]
    rfl
  · rw [((state_boundary (updatePlates updateOk) _ world0 _ d4
      (by decide) (by decide) (by decide) (by decide)).2.1
      (Or.inr (Or.inr (Or.inr ⟨-128, rfl, by decide, by decide, by decide, by decide⟩)))).2]
    rfl
  · rw [((state_boundary (updatePlates updateOk) _ world0 _ d5
      (by decide) (by decide) (by decide) (by decide)).2.1 (Or.inr (Or.inr (Or.inl rfl)))).2]
    rfl
  · rw [((state_boundary (updatePlates updateOk) _ world0 _ d6
      (by decide) (by decide) (by decide) (by decide)).2.1 (Or.inr (Or.inr (Or.inl rfl)))).2]
    rfl

theorem updatePlates_of_command {σ δ : Type} (UpdatePlates : UpdateOp σ δ) (r : Request)
    (w : World σ δ) (b : PlateRequestBody) (shop pop st : Int)
    (hctx : r.ctx.Value plateCtxKey = some (.plate b))
    (hs : b.ShopNumber = some shop) (hp : b.PopNumber = some pop) (hst : b.State = some st) :
    updatePlates UpdatePlates r w =
      match (UpdatePlates w.store r.ctx shop ⟨b.QrID, pop, st⟩).1 with
      | .ok data =>
        .ok ⟨w.written ++ [success (.data data)], w.logs,
          w.calls ++ [⟨r.ctx, shop, ⟨b.QrID, pop, st⟩⟩],
          (UpdatePlates w.store r.ctx shop ⟨b.QrID, pop, st⟩).2⟩
      | .error err =>
        .ok ⟨w.written ++ [failure δ StatusInternalServerError],
          w.logs ++ [updateErrorEntry err],
          w.calls ++ [⟨r.ctx, shop, ⟨b.QrID, pop, st⟩⟩],
          (UpdatePlates w.store r.ctx shop ⟨b.QrID, pop, st⟩).2⟩ := by
  simp only [updatePlates, hctx, hs, hp, hst]
  cases (UpdatePlates w.store r.ctx shop ⟨b.QrID, pop, st⟩).1 <;>
    simp [Succeed, Fail, Logger, success, failure, updateErrorEntry]

theorem forwarded_value (r : Request) (body : PlateRequestBody) :
    (forwarded r body).ctx.Value plateCtxKey = some (.plate body) := by
  simp [forwarded, Request.WithContext, Context.WithValue, Context.Value]

theorem FieldRules.fields {body : PlateRequestBody} (hv : FieldRules body) :
    ∃ shop pop st : Int, body.ShopNumber = some shop ∧ body.PopNumber = some pop ∧
      body.State = some st ∧ 0 ≤ st ∧ st ≤ 1 := by
  obtain ⟨st, hst, h0, h1⟩ := hv .state
  have hs := hv .shopNumber
  have hp := hv .popNumber
  simp only [Rule.holds, ne_eq] at hs hp
  obtain ⟨shop, hs⟩ := Option.ne_none_iff_exists'.1 hs
  obtain ⟨pop, hp⟩ := Option.ne_none_iff_exists'.1 hp
  exact ⟨shop, pop, st, hs, hp, hst, h0, h1⟩

theorem chain_of_valid {σ δ : Type} (UpdatePlates : UpdateOp σ δ) (r : Request)
    (w : World σ δ) (body : PlateRequestBody) (shop pop st : Int)
    (h : Decode r.Body = .ok body) (hv : FieldRules body)
    (hs : body.ShopNumber = some shop) (hp : body.PopNumber = some pop)
    (hst : body.State = some st) :
    ∃ w' : World σ δ,
      validateUpdatePlatesRequest (updatePlates UpdatePlates) r w = .ok w' ∧
      w'.calls = w.calls ++ [⟨(forwarded r body).ctx, shop, ⟨body.QrID, pop, st⟩⟩] ∧
      w'.store = (UpdatePlates w.store (forwarded r body).ctx shop ⟨body.QrID, pop, st⟩).2 ∧
      w'.written = w.written ++
        [match (UpdatePlates w.store (forwarded r body).ctx shop ⟨body.QrID, pop, st⟩).1 with
          | .ok data => success (.data data)
          | .error _ => failure δ StatusInternalServerError] := by
  rw [validate_of_valid _ r w body h ((errMessages_eq_nil_iff body).2 hv),
    updatePlates_of_command UpdatePlates _ _ body shop pop st (forwarded_value r body) hs hp hst]
  cases (UpdatePlates w.store (forwarded r body).ctx shop ⟨body.QrID, pop, st⟩).1 <;>
    exact ⟨_, rfl, rfl, rfl, rfl⟩

/-- C4. For every body posted to `POST /v1/plates` that passes validation,
`validateUpdatePlatesRequest` followed by `updatePlates` invokes `UpdatePlates`
exactly once, with the body's `shopNumber` and with
`PlateStates{QrID, PopNumber, State}` of the body's `qrId`, `popNumber` and
`state`; for the valid body of the specification these are 7, "Q1", 3 and 1.
The same request served a second time gives a second invocation with the same
arguments. -/
theorem update_invoked_once_per_request {σ δ : Type} (UpdatePlates : UpdateOp σ δ)
    (r : Request) (w : World σ δ) (body : PlateRequestBody)
    (h : Decode r.Body = .ok body) (hv : FieldRules body) :
    ∃ (shop pop st : Int) (w₁ w₂ : World σ δ),
      body.ShopNumber = some shop ∧ body.PopNumber = some pop ∧ body.State = some st ∧
      validateUpdatePlatesRequest (updatePlates UpdatePlates) r w = .ok w₁ ∧
      w₁.calls = w.calls ++ [⟨(forwarded r body).ctx, shop, ⟨body.QrID, pop, st⟩⟩] ∧
      validateUpdatePlatesRequest (updatePlates UpdatePlates) r w₁ = .ok w₂ ∧
      w₂.calls = w.calls ++ [⟨(forwarded r body).ctx, shop, ⟨body.QrID, pop, st⟩⟩,
        ⟨(forwarded r body).ctx, shop, ⟨body.QrID, pop, st⟩⟩] ∧
      (r.Body = validBody → shop = 7 ∧ body.QrID = "Q1" ∧ pop = 3 ∧ st = 1) := by
  obtain ⟨shop, pop, st, hs, hp, hst, _, _⟩ := hv.fields
  obtain ⟨w₁, e₁, c₁, _, _⟩ := chain_of_valid UpdatePlates r w body shop pop st h hv hs hp hst
  obtain ⟨w₂, e₂, c₂, _, _⟩ := chain_of_valid UpdatePlates r w₁ body shop pop st h hv hs hp hst
  refine ⟨shop, pop, st, w₁, w₂, hs, hp, hst, e₁, c₁, e₂, ?_, ?_⟩
  · rw [c₂, c₁]; simp
  · intro hb
    rw [hb] at h
    have hd : Decode validBody = .ok ⟨"Q1", some 7, "dev1", some 3, some 1⟩ := by rfl
    rw [hd] at h
    cases h
    cases hs; cases hp; cases hst
    exact ⟨rfl, rfl, rfl, rfl⟩

/-- Witness of C4: the valid body of the specification, posted twice, gives
two invocations of the update operation with 7, "Q1", 3 and 1. -/
theorem update_invoked_once_per_request_witness :
    ∃ w₁ w₂ : World Nat String,
      validateUpdatePlatesRequest (updatePlates updateOk) (plateRequest validBody) world0
        = .ok w₁ ∧
      validateUpdatePlatesRequest (updatePlates updateOk) (plateRequest validBody) w₁
        = .ok w₂ ∧
      w₁.calls.map (fun c => (c.shopNumber, c.states)) = [(7, ⟨"Q1", 3, 1⟩)] ∧
      w₂.calls.map (fun c => (c.shopNumber, c.states)) =
        [(7, ⟨"Q1", 3, 1⟩), (7, ⟨"Q1", 3, 1⟩)] ∧
      w₂.store = 2 := by
  have hd : Decode (plateRequest validBody).Body =
      .ok ⟨"Q1", some 7, "dev1", some 3, some 1⟩ := by rfl
  obtain ⟨shop, pop, st, w₁, w₂, hs, hp, hst, e₁, c₁, e₂, c₂, hb⟩ :=
    update_invoked_once_per_request updateOk (plateRequest validBody) world0 _ hd (by decide)
  obtain ⟨rfl, -, rfl, rfl⟩ := hb rfl
  refine ⟨w₁, w₂, e₁, e₂, ?_, ?_, ?_⟩
  · rw [c₁]; rfl
  · rw [c₂]; rfl
  · have e₁' : validateUpdatePlatesRequest (updatePlates updateOk) (plateRequest validBody)
        world0 = .ok ⟨[success (.data "Q1")], [debugEntry ⟨"Q1", some 7, "dev1", some 3, some 1⟩],
          [⟨(forwarded (plateRequest validBody) ⟨"Q1", some 7, "dev1", some 3, some 1⟩).ctx, 7,
            ⟨"Q1", 3, 1⟩⟩], 1⟩ := by rfl
    rw [e₁'] at e₁
    cases e₁
    have e₂' : validateUpdatePlatesRequest (updatePlates updateOk) (plateRequest validBody)
        ⟨[success (.data "Q1")], [debugEntry ⟨"Q1", some 7, "dev1", some 3, some 1⟩],
          [⟨(forwarded (plateRequest validBody) ⟨"Q1", some 7, "dev1", some 3, some 1⟩).ctx, 7,
            ⟨"Q1", 3, 1⟩⟩], 1⟩ = .ok ⟨[success (.data "Q1"), success (.data "Q1")],
          [debugEntry ⟨"Q1", some 7, "dev1", some 3, some 1⟩,
            debugEntry ⟨"Q1", some 7, "dev1", some 3, some 1⟩],
          [⟨(forwarded (plateRequest validBody) ⟨"Q1", some 7, "dev1", some 3, some 1⟩).ctx, 7,
            ⟨"Q1", 3, 1⟩⟩,
           ⟨(forwarded (plateRequest validBody) ⟨"Q1", some 7, "dev1", some 3, some 1⟩).ctx, 7,
            ⟨"Q1", 3, 1⟩⟩], 2⟩ := by rfl
    rw [e₂'] at e₂
    cases e₂
    rfl

/-- C5. For every validated command that reaches `updatePlates`, the update
operation is invoked once. If it returns an outcome without error, the one
response written is the success response, status 200, with that outcome as its
payload. If it returns an error, the one response written is the failure
response with status 500 and no body: the error goes to the log only. The
update operation is not invoked again. -/
theorem updatePlates_maps_result {σ δ : Type} (UpdatePlates : UpdateOp σ δ) (r : Request)
    (w : World σ δ) (b : PlateRequestBody) (shop pop st : Int)
    (hctx : r.ctx.Value plateCtxKey = some (.plate b))
    (hs : b.ShopNumber = some shop) (hp : b.PopNumber = some pop) (hst : b.State = some st) :
    (∀ data, (UpdatePlates w.store r.ctx shop ⟨b.QrID, pop, st⟩).1 = .ok data →
      updatePlates UpdatePlates r w =
        .ok ⟨w.written ++ [⟨200, some (.data data)⟩], w.logs,
          w.calls ++ [⟨r.ctx, shop, ⟨b.QrID, pop, st⟩⟩],
          (UpdatePlates w.store r.ctx shop ⟨b.QrID, pop, st⟩).2⟩) ∧
    (∀ err, (UpdatePlates w.store r.ctx shop ⟨b.QrID, pop, st⟩).1 = .error err →
      updatePlates UpdatePlates r w =
        .ok ⟨w.written ++ [⟨500, none⟩], w.logs ++ [updateErrorEntry err],
          w.calls ++ [⟨r.ctx, shop, ⟨b.QrID, pop, st⟩⟩],
          (UpdatePlates w.store r.ctx shop ⟨b.QrID, pop, st⟩).2⟩) ∧
    (∃ w' : World σ δ, updatePlates UpdatePlates r w = .ok w' ∧
      (w'.calls = w.calls ++ [⟨r.ctx, shop, ⟨b.QrID, pop, st⟩⟩]) ∧
      ((∃ data, w'.written = w.written ++ [⟨200, some (.data data)⟩]) ∨
        w'.written = w.written ++ [⟨500, none⟩])) := by
  have key := updatePlates_of_command UpdatePlates r w b shop pop st hctx hs hp hst
  refine ⟨?_, ?_, ?_⟩
  · intro data hd
    rw [key, hd]; rfl
  · intro err he
    rw [key, he]; rfl
  · rw [key]
    cases (UpdatePlates w.store r.ctx shop ⟨b.QrID, pop, st⟩).1 with
    | ok data => exact ⟨_, rfl, rfl, Or.inl ⟨data, rfl⟩⟩
    | error err => exact ⟨_, rfl, rfl, Or.inr rfl⟩

/-- Witness of C5: the validated command of the specification's valid body,
with an update operation that succeeds and with one that fails. -/
theorem updatePlates_maps_result_witness :
    (updatePlates updateOk
        (forwarded (plateRequest validBody) ⟨"Q1", some 7, "dev1", some 3, some 1⟩)
        world0).toOption.map (fun w => (w.written, w.store)) =
      some ([⟨200, some (.data "Q1")⟩], 1) ∧
    (updatePlates updateFails
        (forwarded (plateRequest validBody) ⟨"Q1", some 7, "dev1", some 3, some 1⟩)
        world0).toOption.map (fun w => (w.written, w.store)) =
      some ([⟨500, none⟩], 1) := by
  have hok := (updatePlates_maps_result updateOk
    (forwarded (plateRequest validBody) ⟨"Q1", some 7, "dev1", some 3, some 1⟩)
    world0 ⟨"Q1", some 7, "dev1", some 3, some 1⟩ 7 3 1 rfl rfl rfl rfl).1 "Q1" rfl
  have hfail := (updatePlates_maps_result updateFails
    (forwarded (plateRequest validBody) ⟨"Q1", some 7, "dev1", some 3, some 1⟩)
    world0 ⟨"Q1", some 7, "dev1", some 3, some 1⟩ 7 3 1 rfl rfl rfl rfl).2.1 "unavailable" rfl
  rw [hok, hfail]
  exact ⟨rfl, rfl⟩

/-- C7. For every request, `healthCheck` responds with status 200 and the
payload whose JSON encoding is `{"status":"healthy"}`, whatever the request
holds; and for every body posted to `POST /` that decodes, `loggingEventData`
responds with that same status and payload. -/
theorem health_payload_is_fixed {σ δ : Type} (UpdatePlates : UpdateOp σ δ) (r : Request)
    (w : World σ δ) :
    Router UpdatePlates "GET" "/" = some healthCheck ∧
    Router UpdatePlates "POST" "/" = some loggingEventData ∧
    healthCheck r w =
      .ok ⟨w.written ++ [⟨200, some (.status "healthy")⟩], w.logs, w.calls, w.store⟩ ∧
    (∀ jsonBody, DecodeMap r.Body = .ok jsonBody →
      loggingEventData r w =
        .ok ⟨w.written ++ [⟨200, some (.status "healthy")⟩], w.logs ++ [eventEntry r jsonBody],
          w.calls, w.store⟩) ∧
    encodeStatus "healthy" = [("status", "healthy")] := by
  refine ⟨by simp [Router], by simp [Router], rfl, ?_, rfl⟩
  intro jsonBody h
  simp [loggingEventData, h, Succeed, Logger, eventEntry, StatusOK]

theorem Decode_of_readValue_none (body : String) (h : readValue body = none) :
    Decode body = .error .Syntax := by
  simp [Decode, h]

theorem DecodeMap_of_readValue_none (body : String) (h : readValue body = none) :
    DecodeMap body = .error .Syntax := by
  simp [DecodeMap, h]

/-- C6, as amended. For every request body that does not begin with a JSON
value (after white space), which is then not valid JSON, `loggingEventData`
and `validateUpdatePlatesRequest` respond with status 400; on `/v1/plates` the
failure is the one of the parse step: the warning is the one of the decoding
error, without a violation list, and the result is the same whatever the next
handler is. -/
theorem body_without_json_value_is_rejected {σ δ : Type} (next : Handler σ δ) (r : Request)
    (w : World σ δ) (h : readValue r.Body = none) :
    Valid r.Body = false ∧
    loggingEventData r w =
      .ok ⟨w.written ++ [⟨400, none⟩], w.logs ++ [parseWarning r .Syntax], w.calls, w.store⟩ ∧
    validateUpdatePlatesRequest next r w =
      .ok ⟨w.written ++ [⟨400, none⟩], w.logs ++ [parseWarning r .Syntax], w.calls, w.store⟩ := by
  refine ⟨by simp [Valid, h], ?_, ?_⟩
  · simp [loggingEventData, DecodeMap_of_readValue_none r.Body h, Fail, Logger, parseWarning,
      StatusBadRequest]
  · rw [validate_of_decode_error next r w .Syntax (Decode_of_readValue_none r.Body h)]
    rfl

/-- Witness of C6, as amended: the body `{"qrId":` does not begin with a JSON
value. -/
theorem body_without_json_value_is_rejected_witness :
    readValue "\x7b\"qrId\":" = none ∧
    (loggingEventData (eventRequest "\x7b\"qrId\":") world0).toOption.map
      (fun w => w.written) = some [⟨400, none⟩] ∧
    (validateUpdatePlatesRequest (updatePlates updateOk) (plateRequest "\x7b\"qrId\":")
      world0).toOption.map (fun w => (w.written, w.calls)) = some ([⟨400, none⟩], []) := by
  have h₁ := body_without_json_value_is_rejected (updatePlates updateOk)
    (eventRequest "\x7b\"qrId\":") world0 (by rfl)
  have h₂ := body_without_json_value_is_rejected (updatePlates updateOk)
    (plateRequest "\x7b\"qrId\":") world0 (by rfl)
  refine ⟨by rfl, ?_, ?_⟩
  · rw [h₁.2.1]; rfl
  · rw [h₂.2.2]; rfl

/-- Counterexample to C6 as stated: the bodies `{}x` and the valid body of the
specification followed by `x` are not valid JSON, but they begin with a JSON
value, which is all that `Decode` reads. `POST /` answers `{}x` with status
200; `POST /v1/plates` evaluates the five field checks on `{}x` and logs the
five violations, and on the second body invokes the update operation and
answers with status 200. -/
theorem invalid_json_with_valid_prefix_is_decoded :
    Valid "\x7b\x7dx" = false ∧
    (loggingEventData (eventRequest "\x7b\x7dx") world0).toOption.map (fun w => w.written) =
      some [⟨200, some (.status "healthy")⟩] ∧
    ((validateUpdatePlatesRequest (updatePlates updateOk) (plateRequest "\x7b\x7dx")
        world0).toOption.map
      (fun w => w.logs.map (fun e => (e.msg, e.fields.map (fun f => f.1))))) =
      some [("Request Body value is invalid:", ["body", "errs"])] ∧
    Valid (validBody ++ "x") = false ∧
    (validateUpdatePlatesRequest (updatePlates updateOk) (plateRequest (validBody ++ "x"))
        world0).toOption.map
      (fun w => (w.written, w.calls.map (fun c => (c.shopNumber, c.states)))) =
      some ([⟨200, some (.data "Q1")⟩], [(7, ⟨"Q1", 3, 1⟩)]) := by
  refine ⟨by rfl, by rfl, by rfl, by rfl, by rfl⟩

theorem validate_cases {σ δ : Type} (r : Request) (w : World σ δ) :
    (∃ w' : World σ δ, ∀ next : Handler σ δ, validateUpdatePlatesRequest next r w = .ok w') ∨
    (∃ body : PlateRequestBody, Decode r.Body = .ok body ∧ FieldRules body ∧
      ∀ next : Handler σ δ, validateUpdatePlatesRequest next r w =
        next (forwarded r body) ⟨w.written, w.logs ++ [debugEntry body], w.calls, w.store⟩) := by
  cases h : Decode r.Body with
  | error err => exact Or.inl ⟨_, fun next => validate_of_decode_error next r w err h⟩
  | ok body =>
    by_cases hv : errMessages body = []
    · exact Or.inr ⟨body, rfl, (errMessages_eq_nil_iff body).1 hv,
        fun next => validate_of_valid next r w body h hv⟩
    · exact Or.inl ⟨_, fun next => validate_of_violation next r w body h hv⟩

/-- C8. Whatever the request, `validateUpdatePlatesRequest` either responds
without invoking the next handler, or invokes it on a request whose context
holds, under `plateCtxKey`, a command for which all five conditions hold at
once: `qrId` is not empty, `shopNumber` is present, `hostname` is not empty,
`popNumber` is present, and `state` is present with value 0 or 1. -/
theorem forwarded_command_satisfies_rules {σ δ : Type} (r : Request) (w : World σ δ) :
    (∃ w' : World σ δ, ∀ next : Handler σ δ, validateUpdatePlatesRequest next r w = .ok w') ∨
    (∃ (body : PlateRequestBody) (w' : World σ δ),
      (∀ next : Handler σ δ, validateUpdatePlatesRequest next r w = next (forwarded r body) w') ∧
      (forwarded r body).ctx.Value plateCtxKey = some (.plate body) ∧
      body.QrID ≠ "" ∧ body.ShopNumber ≠ none ∧ body.Hostname ≠ "" ∧ body.PopNumber ≠ none ∧
      (body.State = some 0 ∨ body.State = some 1)) := by
  rcases validate_cases r w with h | ⟨body, _, hv, h⟩
  · exact Or.inl h
  · refine Or.inr ⟨body, _, h, forwarded_value r body, hv .qrId, hv .shopNumber, hv .hostname,
      hv .popNumber, ?_⟩
    obtain ⟨s, hs, h0, h1⟩ := hv .state
    have : s = 0 ∨ s = 1 := by omega
    rcases this with rfl | rfl
    · exact Or.inl hs
    · exact Or.inr hs

/-- C9. On the update-state route `updatePlates` runs as the next handler of
`validateUpdatePlatesRequest`. Whenever it runs there, the lookup of
`plateCtxKey` in the context of its request finds a `PlateRequestBody` whose
`ShopNumber`, `PopNumber` and `State` are not `nil`; so for every request the
route returns without the panic of a `nil` dereference. A request whose
context holds no command does make `updatePlates`, run alone, panic. -/
theorem update_route_never_dereferences_nil {σ δ : Type} (UpdatePlates : UpdateOp σ δ)
    (r : Request) (w : World σ δ) :
    Router UpdatePlates "POST" "/v1/plates" =
      some (validateUpdatePlatesRequest (updatePlates UpdatePlates)) ∧
    ((∃ w' : World σ δ, ∀ next : Handler σ δ,
        validateUpdatePlatesRequest next r w = .ok w') ∨
      (∃ (body : PlateRequestBody) (shop pop st : Int) (w' : World σ δ),
        (∀ next : Handler σ δ,
          validateUpdatePlatesRequest next r w = next (forwarded r body) w') ∧
        (forwarded r body).ctx.Value plateCtxKey = some (.plate body) ∧
        body.ShopNumber = some shop ∧ body.PopNumber = some pop ∧ body.State = some st)) ∧
    (∃ w' : World σ δ,
      validateUpdatePlatesRequest (updatePlates UpdatePlates) r w = .ok w') ∧
    updatePlates UpdatePlates { r with ctx := [] } w = .error .nilDereference := by
  refine ⟨by simp [Router], ?_, ?_, ?_⟩
  · rcases validate_cases r w with h | ⟨body, _, hv, h⟩
    · exact Or.inl h
    · obtain ⟨shop, pop, st, hs, hp, hst, _, _⟩ := hv.fields
      exact Or.inr ⟨body, shop, pop, st, _, h, forwarded_value r body, hs, hp, hst⟩
  · rcases validate_cases r w with ⟨w', h⟩ | ⟨body, hd, hv, _⟩
    · exact ⟨w', h _⟩
    · obtain ⟨shop, pop, st, hs, hp, hst, _, _⟩ := hv.fields
      obtain ⟨w', e, _⟩ := chain_of_valid UpdatePlates r w body shop pop st hd hv hs hp hst
      exact ⟨w', e⟩
  · simp [updatePlates, Context.Value]

/-- C10, as amended. For every two bodies that pass validation and differ
only in their hostname, the update operation is invoked with the same
`shopNumber` and the same `PlateStates`, while its context argument holds the
validated body of the request, hostname included; and when the update
operation returns the same result for both, the two responses are the
same. -/
theorem hostname_reaches_only_the_context {σ δ : Type} (UpdatePlates : UpdateOp σ δ)
    (r₁ r₂ : Request) (w₁ w₂ : World σ δ) (b₁ b₂ : PlateRequestBody)
    (h₁ : Decode r₁.Body = .ok b₁) (h₂ : Decode r₂.Body = .ok b₂)
    (hv₁ : FieldRules b₁) (hv₂ : FieldRules b₂)
    (hd : b₂ = { b₁ with Hostname := b₂.Hostname }) :
    ∃ (c₁ c₂ : UpdateCall) (w₁' w₂' : World σ δ),
      validateUpdatePlatesRequest (updatePlates UpdatePlates) r₁ w₁ = .ok w₁' ∧
      validateUpdatePlatesRequest (updatePlates UpdatePlates) r₂ w₂ = .ok w₂' ∧
      w₁'.calls = w₁.calls ++ [c₁] ∧ w₂'.calls = w₂.calls ++ [c₂] ∧
      c₁.shopNumber = c₂.shopNumber ∧ c₁.states = c₂.states ∧
      c₁.ctx.Value plateCtxKey = some (.plate b₁) ∧
      c₂.ctx.Value plateCtxKey = some (.plate b₂) ∧
      ((UpdatePlates w₁.store c₁.ctx c₁.shopNumber c₁.states).1 =
          (UpdatePlates w₂.store c₂.ctx c₂.shopNumber c₂.states).1 →
        ∃ resp : Response δ,
          w₁'.written = w₁.written ++ [resp] ∧ w₂'.written = w₂.written ++ [resp]) := by
  obtain ⟨shop, pop, st, hs, hp, hst, _, _⟩ := hv₁.fields
  have hs₂ : b₂.ShopNumber = some shop := by rw [hd]; exact hs
  have hp₂ : b₂.PopNumber = some pop := by rw [hd]; exact hp
  have hst₂ : b₂.State = some st := by rw [hd]; exact hst
  have hq : b₂.QrID = b₁.QrID := by rw [hd]
  obtain ⟨w₁', e₁, c₁, _, wr₁⟩ :=
    chain_of_valid UpdatePlates r₁ w₁ b₁ shop pop st h₁ hv₁ hs hp hst
  obtain ⟨w₂', e₂, c₂, _, wr₂⟩ :=
    chain_of_valid UpdatePlates r₂ w₂ b₂ shop pop st h₂ hv₂ hs₂ hp₂ hst₂
  refine ⟨_, _, w₁', w₂', e₁, e₂, c₁, c₂, rfl, ?_, forwarded_value r₁ b₁,
    forwarded_value r₂ b₂, ?_⟩
  · simp [hq]
  · intro hres
    simp only at hres
    rw [wr₁, wr₂, hres]
    exact ⟨_, rfl, rfl⟩

/-- Witness of C10, as amended: the valid body of the specification and the
same body with the hostname `dev2`. -/
theorem hostname_reaches_only_the_context_witness :
    ∃ (c₁ c₂ : UpdateCall) (w₁' w₂' : World Nat String),
      validateUpdatePlatesRequest (updatePlates updateOk) (plateRequest validBody) world0
        = .ok w₁' ∧
      validateUpdatePlatesRequest (updatePlates updateOk) (plateRequest validBodyOtherHost)
        world0 = .ok w₂' ∧
      w₁'.calls = [c₁] ∧ w₂'.calls = [c₂] ∧
      c₁.shopNumber = c₂.shopNumber ∧ c₁.states = c₂.states ∧
      ∃ resp : Response String, w₁'.written = [resp] ∧ w₂'.written = [resp] := by
  have hd₁ : Decode (plateRequest validBody).Body =
      .ok ⟨"Q1", some 7, "dev1", some 3, some 1⟩ := by rfl
  have hd₂ : Decode (plateRequest validBodyOtherHost).Body =
      .ok ⟨"Q1", some 7, "dev2", some 3, some 1⟩ := by rfl
  obtain ⟨c₁, c₂, w₁', w₂', e₁, e₂, hc₁, hc₂, hshop, hstates, -, -, hresp⟩ :=
    hostname_reaches_only_the_context updateOk (plateRequest validBody)
      (plateRequest validBodyOtherHost) world0 world0 _ _ hd₁ hd₂ (by decide) (by decide) rfl
  refine ⟨c₁, c₂, w₁', w₂', e₁, e₂, hc₁, hc₂, hshop, hstates, ?_⟩
  have : (updateOk world0.store c₁.ctx c₁.shopNumber c₁.states).1 =
      (updateOk world0.store c₂.ctx c₂.shopNumber c₂.states).1 := by
    simp [updateOk, hstates]
  simpa [world0] using hresp this

/-- Counterexample to C10 as stated: the valid body of the specification and
the same body with the hostname `dev2` pass validation, and the two
invocations of the update operation differ in their first argument, the
context, which holds the hostname. An update operation that reads it there
returns different results, and the two responses differ. -/
theorem hostname_is_passed_in_the_context :
    (validateUpdatePlatesRequest (updatePlates updateOk) (plateRequest validBody)
        world0).toOption.map (fun w => w.calls) =
      some [⟨[("plateContext", .plate ⟨"Q1", some 7, "dev1", some 3, some 1⟩)], 7,
        ⟨"Q1", 3, 1⟩⟩] ∧
    (validateUpdatePlatesRequest (updatePlates updateOk) (plateRequest validBodyOtherHost)
        world0).toOption.map (fun w => w.calls) =
      some [⟨[("plateContext", .plate ⟨"Q1", some 7, "dev2", some 3, some 1⟩)], 7,
        ⟨"Q1", 3, 1⟩⟩] ∧
    decide ((⟨[("plateContext", .plate ⟨"Q1", some 7, "dev1", some 3, some 1⟩)], 7,
        ⟨"Q1", 3, 1⟩⟩ : UpdateCall) =
      ⟨[("plateContext", .plate ⟨"Q1", some 7, "dev2", some 3, some 1⟩)], 7,
        ⟨"Q1", 3, 1⟩⟩) = false ∧
    (validateUpdatePlatesRequest (updatePlates updateEchoHost) (plateRequest validBody)
        world0).toOption.map (fun w => w.written) = some [⟨200, some (.data "dev1")⟩] ∧
    (validateUpdatePlatesRequest (updatePlates updateEchoHost)
        (plateRequest validBodyOtherHost) world0).toOption.map (fun w => w.written) =
      some [⟨200, some (.data "dev2")⟩] := by
  refine ⟨by rfl, by rfl, by decide, by rfl, by rfl⟩

end App
